import Mathlib

/-!
Verification of `brainpy/_src/dyn/projections/aligns.py`: the alignment and
sharing protocol for synaptic projections.  The Python source is shallowly
embedded: registries (keyed hook collections, named input functions, delay
taps) become association lists, object identity becomes an explicitly
allocated numeric id drawn from a `fresh` counter in a `World` state, and the
constructor (`__init__`) and `update` methods of each projection variant
become state-passing Lean functions.  Collaborator contracts that live
outside the file under verification (hook registries, `check.is_instance`,
delay entry registration) are modelled from the specification and marked as
such in their doc comments.
-/

set_option autoImplicit false

namespace Aligns

/-! ## Association-list registries -/

/-- Lookup of the first binding of a key in a keyed collection. -/
def lookupK {κ α : Type} [DecidableEq κ] (xs : List (κ × α)) (k : κ) : Option α :=
  match xs with
  | [] => none
  | (k', v) :: rest => if k' = k then some v else lookupK rest k

/-- Adding a new binding at the end of a keyed collection. -/
def addK {κ α : Type} (xs : List (κ × α)) (k : κ) (v : α) : List (κ × α) :=
  xs ++ [(k, v)]

/-- In-place modification of the value bound to a key (models mutating the
object that a registry lookup aliases). -/
def updateK {κ α : Type} [DecidableEq κ] (xs : List (κ × α)) (k : κ) (f : α → α) :
    List (κ × α) :=
  match xs with
  | [] => []
  | (k', v) :: rest => if k' = k then (k', f v) :: rest else (k', v) :: updateK rest k f

/-- Overwrite-or-append update of a keyed cell collection. -/
def setK {κ α : Type} [DecidableEq κ] (xs : List (κ × α)) (k : κ) (v : α) :
    List (κ × α) :=
  match xs with
  | [] => [(k, v)]
  | (k', v') :: rest => if k' = k then (k, v) :: rest else (k', v') :: setK rest k v

/-- Number of bindings of a key in a keyed collection. -/
def countK {κ α : Type} [DecidableEq κ] (xs : List (κ × α)) (k : κ) : Nat :=
  match xs with
  | [] => 0
  | (k', _) :: rest => (if k' = k then 1 else 0) + countK rest k

theorem lookupK_addK_self {κ α : Type} [DecidableEq κ] (xs : List (κ × α)) (k : κ) (v : α) :
    lookupK (addK xs k v) k = some (lookupK xs k |>.getD v) := by
  induction xs with
  | nil => simp [lookupK, addK]
  | cons hd tl ih =>
    obtain ⟨k', v'⟩ := hd
    by_cases h : k' = k <;> simp [lookupK, addK, h] at ih ⊢ <;> simpa [addK] using ih

theorem lookupK_addK_none {κ α : Type} [DecidableEq κ] {xs : List (κ × α)} {k : κ} (v : α)
    (h : lookupK xs k = none) : lookupK (addK xs k v) k = some v := by
  rw [lookupK_addK_self, h]
  rfl

theorem lookupK_addK_ne {κ α : Type} [DecidableEq κ] (xs : List (κ × α)) {k j : κ} (v : α)
    (h : k ≠ j) : lookupK (addK xs k v) j = lookupK xs j := by
  induction xs with
  | nil => simp [lookupK, addK, h]
  | cons hd tl ih =>
    obtain ⟨k', v'⟩ := hd
    by_cases hk : k' = j <;> simp [lookupK, addK, hk] at ih ⊢ <;> simpa [addK] using ih

theorem lookupK_addK_some {κ α : Type} [DecidableEq κ] {xs : List (κ × α)} {k : κ} {w : α}
    (v : α) (h : lookupK xs k = some w) : lookupK (addK xs k v) k = some w := by
  induction xs with
  | nil => simp [lookupK] at h
  | cons hd tl ih =>
    obtain ⟨k', v'⟩ := hd
    by_cases hk : k' = k <;> simp [lookupK, addK, hk] at h ih ⊢ <;> simpa [addK, h] using ih h

theorem lookupK_updateK_self {κ α : Type} [DecidableEq κ] (xs : List (κ × α)) (k : κ)
    (f : α → α) : lookupK (updateK xs k f) k = (lookupK xs k).map f := by
  induction xs with
  | nil => simp [lookupK, updateK]
  | cons hd tl ih =>
    obtain ⟨k', v'⟩ := hd
    by_cases h : k' = k <;> simp [lookupK, updateK, h, ih]

theorem lookupK_updateK_ne {κ α : Type} [DecidableEq κ] (xs : List (κ × α)) {k j : κ}
    (f : α → α) (h : k ≠ j) : lookupK (updateK xs k f) j = lookupK xs j := by
  induction xs with
  | nil => simp [lookupK, updateK]
  | cons hd tl ih =>
    obtain ⟨k', v'⟩ := hd
    by_cases hk : k' = k
    · subst hk
      have hj : k' ≠ j := h
      simp [lookupK, updateK, hj]
    · by_cases hj : k' = j
      · subst hj
        simp [lookupK, updateK, hk]
      · simp [lookupK, updateK, hk, hj, ih]

theorem lookupK_setK_self {κ α : Type} [DecidableEq κ] (xs : List (κ × α)) (k : κ) (v : α) :
    lookupK (setK xs k v) k = some v := by
  induction xs with
  | nil => simp [lookupK, setK]
  | cons hd tl ih =>
    obtain ⟨k', v'⟩ := hd
    by_cases h : k' = k <;> simp [lookupK, setK, h, ih]

theorem lookupK_setK_ne {κ α : Type} [DecidableEq κ] (xs : List (κ × α)) {k j : κ} (v : α)
    (h : k ≠ j) : lookupK (setK xs k v) j = lookupK xs j := by
  induction xs with
  | nil => simp [lookupK, setK, h]
  | cons hd tl ih =>
    obtain ⟨k', v'⟩ := hd
    by_cases hk : k' = k
    · subst hk
      simp [lookupK, setK, h]
    · by_cases hj : k' = j
      · subst hj
        simp [lookupK, setK, hk]
      · simp [lookupK, setK, hk, hj, ih]

theorem countK_addK_self {κ α : Type} [DecidableEq κ] (xs : List (κ × α)) (k : κ) (v : α) :
    countK (addK xs k v) k = countK xs k + 1 := by
  induction xs with
  | nil => simp [countK, addK]
  | cons hd tl ih =>
    by_cases h : hd.1 = k <;> simp [countK, addK, h] at ih ⊢ <;> omega

theorem countK_addK_ne {κ α : Type} [DecidableEq κ] (xs : List (κ × α)) {k j : κ} (v : α)
    (h : k ≠ j) : countK (addK xs k v) j = countK xs j := by
  induction xs with
  | nil => simp [countK, addK, h]
  | cons hd tl ih =>
    by_cases hk : hd.1 = j <;> simp [countK, addK, hk] at ih ⊢ <;> omega

theorem countK_eq_zero_of_lookupK_none {κ α : Type} [DecidableEq κ] {xs : List (κ × α)}
    {k : κ} (h : lookupK xs k = none) : countK xs k = 0 := by
  induction xs with
  | nil => simp [countK]
  | cons hd tl ih =>
    by_cases hk : hd.1 = k
    · simp [lookupK, hk] at h
    · simp [lookupK, hk] at h
      simp [countK, hk, ih h]

/-! ## `_init_delay` (aligns.py lines 58–86)

`_init_delay` builds a delay buffer from either a live variable or a
`ReturnInfo` descriptor.  Arrays are modelled by their shapes (the only
attribute the function inspects); a `ReturnInfo.data` initializer is either
a callable from a shape to an array, an array, or something else. -/

/-- An array value, modelled by its shape (`init.shape`, `init.ndim` are the
only attributes `_init_delay` reads). -/
structure ArrayVal where
  shape : List Nat
deriving DecidableEq

/-- `ndim` of an array value. -/
def ArrayVal.ndim (a : ArrayVal) : Nat := a.shape.length

/-- The `batch_or_mode` field of a `ReturnInfo`: an int, a
`NonBatchingMode`, a `BatchingMode` (carrying `batch_size`), or any other
value (the final `else` branch of lines 71–73). -/
inductive BatchOrMode where
  | int (n : Nat)
  | nonBatching
  | batching (batchSize : Nat)
  | other

/-- The `data` field of a `ReturnInfo`: a callable initializer, an array
(`bm.Array` / `jax.Array`), or neither (line 79 raises `TypeError`). -/
inductive InitData where
  | callable (f : List Nat → ArrayVal)
  | array (a : ArrayVal)
  | otherData

/-- `ReturnInfo` (from `brainpy._src.mixin`): the shape/batch-layout
descriptor a delay source declares. -/
structure ReturnInfo where
  size : List Nat
  batch_or_mode : BatchOrMode
  data : InitData
  axis_names : Option (List String)

/-- The argument of `_init_delay`: a `bm.Variable`, a `ReturnInfo`, or
anything else (line 86 raises `TypeError`). -/
inductive DelayInitArg where
  | var (v : ArrayVal)
  | info (i : ReturnInfo)
  | otherArg

/-- The delay target variable (`bm.Variable(init, batch_axis=…, axis_names=…)`). -/
structure VariableVal where
  shape : List Nat
  batchAxis : Option Nat
  axisNames : Option (List String)

/-- Result of `_init_delay`: a `VarDelay` wrapping a live variable, or a
`DataDelay` over a freshly built target. -/
inductive DelayVal where
  | varDelay (v : ArrayVal)
  | dataDelay (target : VariableVal) (dataInit : InitData)

/-- Failure modes of `_init_delay`: `raise TypeError` (lines 79, 86) and a
failed `assert` (lines 80–82). -/
inductive InitError where
  | typeError
  | assertionError
deriving DecidableEq

/-- The shape / batch-axis derivation of `_init_delay` (lines 62–73): an
`int` gives `(n,) + size` with batch axis 0, `NonBatchingMode` gives `size`
with no batch axis, `BatchingMode` gives `(batch_size,) + size` with batch
axis 0, and any other value falls into the `else` branch: `size`, no batch
axis. -/
def deriveLayout (b : BatchOrMode) (size : List Nat) : List Nat × Option Nat :=
  match b with
  | .int n => (n :: size, some 0)
  | .nonBatching => (size, none)
  | .batching bs => (bs :: size, some 0)
  | .other => (size, none)

/-- The initializer value produced from `ReturnInfo.data` (lines 74–79):
a callable is applied to the derived shape, an array is taken as is,
anything else is `None` here (the `TypeError` branch). -/
def producedInit (d : InitData) (shape : List Nat) : Option ArrayVal :=
  match d with
  | .callable f => some (f shape)
  | .array a => some a
  | .otherData => none

/-- `_init_delay` (lines 58–86).  `Variable` arguments yield a `VarDelay`;
`ReturnInfo` arguments derive a shape and batch axis, produce the
initializer value, check `init.shape == shape` and (when `axis_names` is
set) `init.ndim == len(axis_names)` by assertion, and yield a `DataDelay`;
other arguments raise `TypeError`. -/
def _init_delay (arg : DelayInitArg) : Except InitError DelayVal :=
  match arg with
  | .var v => .ok (.varDelay v)
  | .info i =>
    let sl := deriveLayout i.batch_or_mode i.size
    match producedInit i.data sl.1 with
    | none => .error .typeError
    | some ini =>
      if ini.shape = sl.1 then
        match i.axis_names with
        | some ns =>
          if ini.ndim = ns.length then
            .ok (.dataDelay ⟨ini.shape, sl.2, i.axis_names⟩ i.data)
          else
            .error .assertionError
        | none => .ok (.dataDelay ⟨ini.shape, sl.2, i.axis_names⟩ i.data)
      else
        .error .assertionError
  | .otherArg => .error .typeError

/-! ## The node/registry state

Object identity is made explicit: every object created during construction
(synapse instance, output instance, delay buffer) receives a fresh numeric
id from a counter.  A `World` holds one pre node and one post node — the
pair of populations a projection connects — together with the allocation
counter and a count of how many delay buffers have ever been created
(`delayAllocs`), used to state "at most one delay instance is ever
created". -/

/-- Object identity (Python `id`): a fresh number per created object. -/
abbrev ObjId := Nat

/-- Delay offsets `Union[None, int, float]`: `none` is the zero-cost alias;
numeric offsets are modelled as integers. -/
abbrev DelayTime := Option Int

/-- The `_AlignPreMg(access, syn)` unit that `ProjAlignPreMg2` hangs as a
before-update of the shared pre delay (lines 48–55, 772–778): a
`DelayAccess` at a fixed offset plus a synapse instance. -/
structure PreMgUnit where
  accessTime : DelayTime
  synId : ObjId
deriving DecidableEq

/-- A delay buffer object: its identity, its named taps
(`register_entry`), and its own keyed before-update units (used by
`ProjAlignPreMg2`). -/
structure DelayObj where
  oid : ObjId
  entries : List (String × DelayTime)
  befUpdates : List (String × PreMgUnit)
deriving DecidableEq

/-- A unit registered in a pre node's after-update registry: either a bare
delay buffer (the sentinel-keyed pre-spike delay) or an
`_AlignPre(syn, delay)` composite (lines 23–33). -/
inductive AftUnit where
  | delayU (d : DelayObj)
  | alignPre (synId : ObjId) (d : DelayObj)
deriving DecidableEq

/-- An `_AlignPost(syn, out)` composite (lines 36–45), registered in a post
node's before-update registry. -/
structure AlignPostUnit where
  synId : ObjId
  outId : ObjId
deriving DecidableEq

/-- A pre node: its after-update hook registry. -/
structure PreNode where
  aftUpdates : List (String × AftUnit)
deriving DecidableEq

/-- A post node: its before-update hook registry and its named input
functions. -/
structure PostNode where
  befUpdates : List (String × AlignPostUnit)
  inpFuns : List (String × ObjId)
deriving DecidableEq

/-- The state mutated by projection construction. -/
structure World where
  fresh : Nat
  delayAllocs : Nat
  pre : PreNode
  post : PostNode
deriving DecidableEq

/-- Modelled from the spec: HookRegistry `has_after(key)` on the pre node. -/
def PreNode.has_aft_update (p : PreNode) (k : String) : Bool :=
  (lookupK p.aftUpdates k).isSome

/-- Modelled from the spec: HookRegistry `add_after(key, unit)` on the pre
node (call-once; callers check `has_after` first). -/
def PreNode.add_aft_update (p : PreNode) (k : String) (u : AftUnit) : PreNode :=
  ⟨addK p.aftUpdates k u⟩

/-- Modelled from the spec: HookRegistry `get_after(key)` on the pre node. -/
def PreNode.get_aft_update (p : PreNode) (k : String) : Option AftUnit :=
  lookupK p.aftUpdates k

/-- Modelled from the spec: HookRegistry `has_before(key)` on the post node. -/
def PostNode.has_bef_update (p : PostNode) (k : String) : Bool :=
  (lookupK p.befUpdates k).isSome

/-- Modelled from the spec: HookRegistry `add_before(key, unit)` on the post
node. -/
def PostNode.add_bef_update (p : PostNode) (k : String) (u : AlignPostUnit) : PostNode :=
  { p with befUpdates := addK p.befUpdates k u }

/-- Modelled from the spec: HookRegistry `get_before(key)` on the post node. -/
def PostNode.get_bef_update (p : PostNode) (k : String) : Option AlignPostUnit :=
  lookupK p.befUpdates k

/-- Modelled from the spec: `add_inp_fun(name, accumulator)` on the post
node (InputAccumulatorBinding). -/
def PostNode.add_inp_fun (p : PostNode) (nm : String) (o : ObjId) : PostNode :=
  { p with inpFuns := addK p.inpFuns nm o }

/-- Modelled from the spec: `register_entry(tap_name, offset)` on a delay —
idempotent; if the tap name already exists it is a no-op. -/
def DelayObj.register_entry (d : DelayObj) (nm : String) (t : DelayTime) : DelayObj :=
  if (lookupK d.entries nm).isSome then d
  else { d with entries := addK d.entries nm t }

/-- Modelled from the spec: HookRegistry `has_before(key)` on a delay. -/
def DelayObj.has_bef_update (d : DelayObj) (k : String) : Bool :=
  (lookupK d.befUpdates k).isSome

/-- Modelled from the spec: HookRegistry `add_before(key, unit)` on a
delay. -/
def DelayObj.add_bef_update (d : DelayObj) (k : String) (u : PreMgUnit) : DelayObj :=
  { d with befUpdates := addK d.befUpdates k u }

/-- Modelled from the spec: HookRegistry `get_before(key)` on a delay. -/
def DelayObj.get_bef_update (d : DelayObj) (k : String) : Option PreMgUnit :=
  lookupK d.befUpdates k

/-- The fixed sentinel key for the pre-side spike delay (line 20). -/
def _pre_delay_repr : String := "_*_align_pre_spk_delay_*_"

/-- Allocation of a fresh delay buffer: models a successful
`_init_delay(…)` call creating a new delay object (the descriptor/shape
validation of that call is verified separately on `_init_delay`). -/
def World.newDelay (w : World) : World × DelayObj :=
  ({ w with fresh := w.fresh + 1, delayAllocs := w.delayAllocs + 1 },
   ⟨w.fresh, [], []⟩)

/-- The shared pre-delay initialization block duplicated at lines 348–353
(`ProjAlignPostMg2`), 542–547 (`ProjAlignPost2`), 765–768
(`ProjAlignPreMg2`) and 992–995 (`ProjAlignPre2`): if the pre node has no
after-update under the sentinel key, build a delay from
`pre.return_info()` and add it there. -/
def ensurePreDelay (w : World) : World :=
  if w.pre.has_aft_update _pre_delay_repr then w
  else
    let wd := w.newDelay
    { wd.1 with pre := wd.1.pre.add_aft_update _pre_delay_repr (.delayU wd.2) }

/-- The sentinel-keyed delay of the pre node, when present
(`pre.get_aft_update(_pre_delay_repr)`). -/
def sentinelDelay (w : World) : Option DelayObj :=
  match w.pre.get_aft_update _pre_delay_repr with
  | some (.delayU d) => some d
  | _ => none

/-- `delay_cls = pre.get_aft_update(_pre_delay_repr); delay_cls.register_entry(name, delay)`:
the registry lookup aliases the stored object, so registering a tap mutates
it in place. -/
def registerSentinelEntry (w : World) (nm : String) (t : DelayTime) : World :=
  { w with pre := ⟨updateK w.pre.aftUpdates _pre_delay_repr (fun u =>
      match u with
      | .delayU d => .delayU (d.register_entry nm t)
      | u' => u')⟩ }

/-- In-place `add_bef_update` on the sentinel delay (used by
`ProjAlignPreMg2`, line 778). -/
def addSentinelBefUpdate (w : World) (k : String) (u : PreMgUnit) : World :=
  { w with pre := ⟨updateK w.pre.aftUpdates _pre_delay_repr (fun a =>
      match a with
      | .delayU d => .delayU (d.add_bef_update k u)
      | a' => a')⟩ }

/-- The pre-side part shared by `ProjAlignPostMg2`, `ProjAlignPost2` and
`ProjAlignPre2`: ensure the sentinel delay exists and register a tap named
after the projection. -/
def preDelayPart (nm : String) (t : DelayTime) (w : World) : World :=
  registerSentinelEntry (ensurePreDelay w) nm t

/-! ## Construction-time wiring of the projection variants

Each `X_register` function is the registration part of the corresponding
`__init__` (everything after the `check.is_instance` calls).  Descriptors
(`ParamDescInit`) are modelled by their `identifier` strings; instantiating
a descriptor (`syn()`, `out()`) allocates a fresh object id.  Explicit
(caller-constructed) `syn`/`out` arguments are passed as object ids. -/

/-- The references a post-aligned managed projection keeps
(`refs['syn']`, `refs['out']`). -/
structure PostRefs where
  synRef : ObjId
  outRef : ObjId
deriving DecidableEq

/-- The references a pre-aligned projection keeps (`refs['syn']`,
`refs['delay']`). -/
structure PreRefs where
  synRef : ObjId
  delayId : ObjId
deriving DecidableEq

/-- `self._post_repr = f'{syn.identifier} // {out.identifier}'`
(lines 238, 357). -/
def _post_repr (synDesc outDesc : String) : String :=
  synDesc ++ " // " ++ outDesc

/-- The managed post-aligned synapse/output block duplicated at lines
238–248 (`ProjAlignPostMg1`) and 357–367 (`ProjAlignPostMg2`): if the post
node has no before-update under the descriptor key, instantiate the
descriptors, register the output as an input function under the
projection's name, and add an `_AlignPost` unit under the descriptor key;
then take `syn`/`out` references from the registered unit. -/
def mgPostBlock (synDesc outDesc nm : String) (w : World) : World × PostRefs :=
  let key := _post_repr synDesc outDesc
  let w1 :=
    if w.post.has_bef_update key then w
    else
      let synId := w.fresh
      let outId := w.fresh + 1
      { w with
          fresh := w.fresh + 2,
          post := (w.post.add_inp_fun nm outId).add_bef_update key ⟨synId, outId⟩ }
  match w1.post.get_bef_update key with
  | some u => (w1, ⟨u.synId, u.outId⟩)
  | none => (w1, ⟨0, 0⟩)

/-- `VanillaProj.__init__` registration (lines 158–163). -/
def vanillaProj_register (outId : ObjId) (nm : String) (w : World) : World × ObjId :=
  ({ w with post := w.post.add_inp_fun nm outId }, outId)

/-- `ProjAlignPostMg1.__init__` registration (lines 237–248). -/
def projAlignPostMg1_register (synDesc outDesc nm : String) (w : World) : World × PostRefs :=
  mgPostBlock synDesc outDesc nm w

/-- `ProjAlignPostMg2.__init__` registration (lines 347–367): the shared
pre-delay block with a tap named after the projection, then the managed
post block. -/
def projAlignPostMg2_register (synDesc outDesc nm : String) (t : DelayTime) (w : World) :
    World × PostRefs :=
  mgPostBlock synDesc outDesc nm (preDelayPart nm t w)

/-- `ProjAlignPost1.__init__` registration (lines 438–445): explicit
`syn`/`out` instances; the `_AlignPost` unit is keyed by the projection's
own name. -/
def projAlignPost1_register (synId outId : ObjId) (nm : String) (w : World) :
    World × PostRefs :=
  let w1 := { w with post := (w.post.add_inp_fun nm outId).add_bef_update nm ⟨synId, outId⟩ }
  match w1.post.get_bef_update nm with
  | some u => (w1, ⟨u.synId, u.outId⟩)
  | none => (w1, ⟨0, 0⟩)

/-- `ProjAlignPost2.__init__` registration (lines 541–555): the shared
pre-delay block with a tap named after the projection, then the output is
registered as an input function; `refs['out']` is the caller's instance. -/
def projAlignPost2_register (outId : ObjId) (nm : String) (t : DelayTime) (w : World) :
    World × ObjId :=
  let w1 := preDelayPart nm t w
  ({ w1 with post := w1.post.add_inp_fun nm outId }, outId)

/-- `self._syn_id = f'{syn.identifier} // Delay'` (line 652). -/
def _syn_id_preMg1 (synDesc : String) : String :=
  synDesc ++ " // Delay"

/-- `ProjAlignPreMg1.__init__` registration (lines 651–667): get-or-create
an `_AlignPre(syn(), _init_delay(syn.return_info()))` under the
`'{syn.identifier} // Delay'` key of the pre node, then register a tap
named after the projection on the shared delay and add the output as an
input function of the post node. -/
def projAlignPreMg1_register (synDesc nm : String) (t : DelayTime) (outId : ObjId)
    (w : World) : World × PreRefs :=
  let key := _syn_id_preMg1 synDesc
  let w1 :=
    if w.pre.has_aft_update key then w
    else
      let synId := w.fresh
      let wd := World.newDelay { w with fresh := w.fresh + 1 }
      { wd.1 with pre := wd.1.pre.add_aft_update key (.alignPre synId wd.2) }
  let w2 := { w1 with pre := ⟨updateK w1.pre.aftUpdates key (fun u =>
      match u with
      | .alignPre s d => .alignPre s (d.register_entry nm t)
      | u' => u')⟩ }
  let w3 := { w2 with post := w2.post.add_inp_fun nm outId }
  match w3.pre.get_aft_update key with
  | some (.alignPre s d) => (w3, ⟨s, d.oid⟩)
  | _ => (w3, ⟨0, 0⟩)

/-- `self._syn_id = f'Delay({str(delay)}) // {syn.identifier}'` (line 771). -/
def _syn_id_preMg2 (t : DelayTime) (synDesc : String) : String :=
  "Delay(" ++ (match t with | none => "None" | some n => toString n) ++ ") // " ++ synDesc

/-- `ProjAlignPreMg2.__init__` registration (lines 764–786): ensure the
sentinel pre delay, then get-or-create an `_AlignPreMg(DelayAccess(delay_cls,
delay), syn())` before-update unit on that delay, keyed by delay offset and
synapse descriptor; finally register the output as an input function. -/
def projAlignPreMg2_register (synDesc nm : String) (t : DelayTime) (outId : ObjId)
    (w : World) : World × ObjId :=
  let w1 := ensurePreDelay w
  let key := _syn_id_preMg2 t synDesc
  let w2 :=
    match sentinelDelay w1 with
    | some d =>
      if d.has_bef_update key then w1
      else
        let synId := w1.fresh
        addSentinelBefUpdate { w1 with fresh := w1.fresh + 1 } key ⟨t, synId⟩
    | none => w1
  let w3 := { w2 with post := w2.post.add_inp_fun nm outId }
  (w3, outId)

/-- `ProjAlignPre1.__init__` registration (lines 882–893): build a delay
from `syn.return_info()`, register a tap named after the projection, add an
`_AlignPre(syn, delay)` after-update on the pre node under the projection's
name, and add the output as an input function. -/
def projAlignPre1_register (synId outId : ObjId) (nm : String) (t : DelayTime)
    (w : World) : World × PreRefs :=
  let wd := w.newDelay
  let d1 := wd.2.register_entry nm t
  let w1 := { wd.1 with pre := wd.1.pre.add_aft_update nm (.alignPre synId d1) }
  let w2 := { w1 with post := w1.post.add_inp_fun nm outId }
  (w2, ⟨synId, d1.oid⟩)

/-- `ProjAlignPre2.__init__` registration (lines 991–1003): the shared
pre-delay block with a tap named after the projection, then the output is
registered as an input function. -/
def projAlignPre2_register (outId : ObjId) (nm : String) (t : DelayTime) (w : World) :
    World × ObjId :=
  let w1 := preDelayPart nm t w
  ({ w1 with post := w1.post.add_inp_fun nm outId }, outId)

/-! ## Step-time execution

Signal values are integers.  The communication operator and the synapse
dynamics are opaque collaborators, passed as pure functions; reading a tap
of the pre node's shared delay (`….at(self.name)`) is passed as a function
from tap names to values.  The mutable cells an update may touch live in
`Cells`: the per-output bound conditional value (`bind_cond`) and the
per-synapse accumulated current (`add_current`). -/

/-- Signal values. -/
abbrev Value := Int

/-- The step-time mutable cells: output accumulators and shared-synapse
current accumulators, keyed by object identity. -/
structure Cells where
  bound : List (ObjId × Value)
  current : List (ObjId × Value)
deriving DecidableEq

/-- Modelled from the spec: the output accumulator capability
`bind_cond(value)` — binds the value into the destination's accumulator. -/
def Cells.bind_cond (c : Cells) (o : ObjId) (v : Value) : Cells :=
  { c with bound := setK c.bound o v }

/-- Modelled from the spec: the shared synapse entry point
`add_current(value)` — accumulates current into the shared unit's state. -/
def Cells.add_current (c : Cells) (s : ObjId) (v : Value) : Cells :=
  { c with current := setK c.current s ((lookupK c.current s).getD 0 + v) }

/-- `VanillaProj.update` (lines 165–168). -/
def vanillaProj_update (comm : Value → Value) (outRef : ObjId) (w : World) (c : Cells)
    (x : Value) : World × Cells × Value :=
  let current := comm x
  (w, c.bind_cond outRef current, current)

/-- `ProjAlignPostMg1.update` (lines 250–253). -/
def projAlignPostMg1_update (comm : Value → Value) (synRef : ObjId) (w : World)
    (c : Cells) (x : Value) : World × Cells × Value :=
  let current := comm x
  (w, c.add_current synRef current, current)

/-- `ProjAlignPostMg2.update` (lines 369–373): the driving value is read
from the projection-named tap of the pre node's sentinel delay. -/
def projAlignPostMg2_update (comm : Value → Value) (synRef : ObjId)
    (delayAt : String → Value) (nm : String) (w : World) (c : Cells) :
    World × Cells × Value :=
  let x := delayAt nm
  let current := comm x
  (w, c.add_current synRef current, current)

/-- `ProjAlignPost1.update` (lines 447–450). -/
def projAlignPost1_update (comm : Value → Value) (synRef : ObjId) (w : World)
    (c : Cells) (x : Value) : World × Cells × Value :=
  let current := comm x
  (w, c.add_current synRef current, current)

/-- `ProjAlignPost2.update` (lines 557–561): read the projection-named tap
of the pre node's sentinel delay, communicate, run the synapse on the
communicated value, bind the result. -/
def projAlignPost2_update (comm synF : Value → Value) (delayAt : String → Value)
    (nm : String) (outRef : ObjId) (w : World) (c : Cells) : World × Cells × Value :=
  let x := delayAt nm
  let g := synF (comm x)
  (w, c.bind_cond outRef g, g)

/-- `ProjAlignPreMg1.update` (lines 669–674): with no argument, read the
projection-named tap of the shared post-synapse delay. -/
def projAlignPreMg1_update (comm : Value → Value) (outRef : ObjId)
    (delayAt : String → Value) (nm : String) (w : World) (c : Cells)
    (xArg : Option Value) : World × Cells × Value :=
  let x := match xArg with
           | none => delayAt nm
           | some v => v
  let current := comm x
  (w, c.bind_cond outRef current, current)

/-- `ProjAlignPreMg2.update` (lines 788–792): the driving value is
`_get_return(refs['syn'].return_info())`, the shared synapse's current
output, passed here as `synRet`. -/
def projAlignPreMg2_update (comm : Value → Value) (outRef : ObjId) (synRet : Value)
    (w : World) (c : Cells) : World × Cells × Value :=
  let x := synRet
  let current := comm x
  (w, c.bind_cond outRef current, current)

/-- `ProjAlignPre1.update` (lines 895–900): with no argument, read the
projection-named tap of the projection's own delay. -/
def projAlignPre1_update (comm : Value → Value) (outRef : ObjId)
    (delayAt : String → Value) (nm : String) (w : World) (c : Cells)
    (xArg : Option Value) : World × Cells × Value :=
  let x := match xArg with
           | none => delayAt nm
           | some v => v
  let current := comm x
  (w, c.bind_cond outRef current, current)

/-- `ProjAlignPre2.update` (lines 1005–1009): read the projection-named tap
of the sentinel delay, run the synapse on the raw delayed signal, then
communicate, then bind. -/
def projAlignPre2_update (comm synF : Value → Value) (delayAt : String → Value)
    (nm : String) (outRef : ObjId) (w : World) (c : Cells) : World × Cells × Value :=
  let spk := delayAt nm
  let g := comm (synF spk)
  (w, c.bind_cond outRef g, g)

/-! ## The `_AlignPre` composite (lines 23–33) -/

/-- `_AlignPre.update` (lines 29–33): feed `x` through the synapse, then —
when the delay component is present — through the delay.  Modelled from the
spec for the delay step: feeding a value into the delay writes it into the
buffer (rotation) and passes it on.  The synapse is a pure function, the
delay buffer a list with the most recent entry first. -/
def _AlignPre_update (synF : Value → Value) (delayBuf : Option (List Value))
    (x : Value) : Option (List Value) × Value :=
  match delayBuf with
  | none => (none, synF x)
  | some b =>
    let cur := synF x
    (some (cur :: b), cur)

/-! ## Capability checks (`check.is_instance`, spec §7(a))

The `check.is_instance(arg, Type)` calls at the head of every `__init__`
are modelled from the spec: each required role capability of an argument is
a boolean, and a failed check raises a `TypeError`-style configuration
error before any registration runs. -/

/-- A capability (configuration) error raised at construction. -/
inductive CapError where
  | typeError
deriving DecidableEq

/-- Modelled from the spec: `check.is_instance` — succeeds when the
argument has the required capability, raises otherwise. -/
def check_is_instance (ok : Bool) : Except CapError Unit :=
  if ok then .ok () else .error .typeError

/-- Run a sequence of `check.is_instance` calls in order, stopping at the
first failure. -/
def runChecks : List Bool → Except CapError Unit
  | [] => .ok ()
  | b :: rest =>
    match check_is_instance b with
    | .error e => .error e
    | .ok _ => runChecks rest

theorem runChecks_eq (bs : List Bool) :
    runChecks bs = if bs.all id then .ok () else .error .typeError := by
  induction bs with
  | nil => rfl
  | cons b rest ih =>
    cases b <;> simp [runChecks, check_is_instance, ih]

/-- A guarded constructor: run the checks in order; on failure return the
world unchanged with the error, otherwise perform the registration. -/
def guardedInit {ρ : Type} (checks : List Bool) (reg : World → World × ρ) (w : World) :
    World × Except CapError ρ :=
  match runChecks checks with
  | .error e => (w, .error e)
  | .ok _ =>
    let r := reg w
    (r.1, .ok r.2)

/-- `VanillaProj.__init__` (lines 143–163): checks on `comm`, `out`,
`post`, then registration. -/
def vanillaProj_init (cComm cOut cPost : Bool) (outId : ObjId) (nm : String)
    (w : World) : World × Except CapError ObjId :=
  guardedInit [cComm, cOut, cPost] (vanillaProj_register outId nm) w

/-- `ProjAlignPostMg1.__init__` (lines 219–248): checks on `comm`, `syn`
descriptor, `out` descriptor, `post`, then registration. -/
def projAlignPostMg1_init (cComm cSyn cOut cPost : Bool) (synDesc outDesc nm : String)
    (w : World) : World × Except CapError PostRefs :=
  guardedInit [cComm, cSyn, cOut, cPost] (projAlignPostMg1_register synDesc outDesc nm) w

/-- `ProjAlignPostMg2.__init__` (lines 326–367): checks on `pre`, `comm`,
`syn` descriptor, `out` descriptor, `post`, then registration. -/
def projAlignPostMg2_init (cPre cComm cSyn cOut cPost : Bool)
    (synDesc outDesc nm : String) (t : DelayTime) (w : World) :
    World × Except CapError PostRefs :=
  guardedInit [cPre, cComm, cSyn, cOut, cPost]
    (projAlignPostMg2_register synDesc outDesc nm t) w

/-- `ProjAlignPost1.__init__` (lines 420–445): checks on `comm`, `syn`,
`out`, `post`, then registration. -/
def projAlignPost1_init (cComm cSyn cOut cPost : Bool) (synId outId : ObjId)
    (nm : String) (w : World) : World × Except CapError PostRefs :=
  guardedInit [cComm, cSyn, cOut, cPost] (projAlignPost1_register synId outId nm) w

/-- `ProjAlignPost2.__init__` (lines 519–555): checks on `pre`, `comm`,
`syn`, `out`, `post`, then registration. -/
def projAlignPost2_init (cPre cComm cSyn cOut cPost : Bool) (outId : ObjId)
    (nm : String) (t : DelayTime) (w : World) : World × Except CapError ObjId :=
  guardedInit [cPre, cComm, cSyn, cOut, cPost] (projAlignPost2_register outId nm t) w

/-- `ProjAlignPreMg1.__init__` (lines 630–667): checks on `pre`, `syn`
descriptor, `comm`, `out`, `post`, then registration. -/
def projAlignPreMg1_init (cPre cSyn cComm cOut cPost : Bool) (synDesc nm : String)
    (t : DelayTime) (outId : ObjId) (w : World) : World × Except CapError PreRefs :=
  guardedInit [cPre, cSyn, cComm, cOut, cPost]
    (projAlignPreMg1_register synDesc nm t outId) w

/-- `ProjAlignPreMg2.__init__` (lines 743–786): checks on `pre`, `syn`
descriptor, `comm`, `out`, `post`, then registration. -/
def projAlignPreMg2_init (cPre cSyn cComm cOut cPost : Bool) (synDesc nm : String)
    (t : DelayTime) (outId : ObjId) (w : World) : World × Except CapError ObjId :=
  guardedInit [cPre, cSyn, cComm, cOut, cPost]
    (projAlignPreMg2_register synDesc nm t outId) w

/-- `ProjAlignPre1.__init__` (lines 861–893): checks on `pre`, `syn`,
`comm`, `out`, `post`, then registration. -/
def projAlignPre1_init (cPre cSyn cComm cOut cPost : Bool) (synId outId : ObjId)
    (nm : String) (t : DelayTime) (w : World) : World × Except CapError PreRefs :=
  guardedInit [cPre, cSyn, cComm, cOut, cPost]
    (projAlignPre1_register synId outId nm t) w

/-- `ProjAlignPre2.__init__` (lines 969–1003): checks on `pre`, `syn`,
`comm`, `out`, `post`, then registration. -/
def projAlignPre2_init (cPre cSyn cComm cOut cPost : Bool) (outId : ObjId)
    (nm : String) (t : DelayTime) (w : World) : World × Except CapError ObjId :=
  guardedInit [cPre, cSyn, cComm, cOut, cPost]
    (projAlignPre2_register outId nm t) w

/-! ## Construction sequences of the pre-delaying variants (for the shared
sentinel delay invariant) -/

/-- One construction step by one of the four variants that take a pre node
and delay the raw pre signal: `ProjAlignPostMg2`, `ProjAlignPost2`,
`ProjAlignPreMg2`, `ProjAlignPre2`. -/
inductive SentOp where
  | mg2 (synDesc outDesc nm : String) (t : DelayTime)
  | post2 (outId : ObjId) (nm : String) (t : DelayTime)
  | preMg2 (synDesc nm : String) (t : DelayTime) (outId : ObjId)
  | pre2 (outId : ObjId) (nm : String) (t : DelayTime)

/-- The construction (registration) effect of one such projection. -/
def applySentOp (op : SentOp) (w : World) : World :=
  match op with
  | .mg2 s o nm t => (projAlignPostMg2_register s o nm t w).1
  | .post2 o nm t => (projAlignPost2_register o nm t w).1
  | .preMg2 s nm t o => (projAlignPreMg2_register s nm t o w).1
  | .pre2 o nm t => (projAlignPre2_register o nm t w).1

/-- Applying a whole sequence of such constructions. -/
def applySentOps (w : World) : List SentOp → World
  | [] => w
  | op :: rest => applySentOps (applySentOp op w) rest

/-- Whether the pre node's sentinel delay carries a tap of the given name. -/
def sentinelHasEntry (w : World) (nm : String) : Bool :=
  match sentinelDelay w with
  | some d => (lookupK d.entries nm).isSome
  | none => false

/-- Whether the pre node's sentinel delay carries a keyed before-update
unit. -/
def sentinelHasBef (w : World) (k : String) : Bool :=
  match sentinelDelay w with
  | some d => (lookupK d.befUpdates k).isSome
  | none => false

/-! ## Claim theorems -/

/-- C3: `VanillaProj.update(x)` computes `current = comm(x)`, binds exactly
that value into the destination's accumulator via `bind_cond`, and returns
it; no synapse dynamics and no delay buffering take part, so for every
state the output equals the communication operator applied to the raw
current input with no latency. -/
theorem c3_vanilla_update_direct (comm : Value → Value) (outRef : ObjId) (w : World)
    (c : Cells) (x : Value) :
    vanillaProj_update comm outRef w c x = (w, c.bind_cond outRef (comm x), comm x) :=
  rfl

/-- C4: `ProjAlignPost2.update()` reads the value at the tap named by the
projection from the pre node's shared delay (the raw pre signal, delayed
before communication), applies the communication operator, then the synapse
to the communicated value, binds the result `g = syn(comm(delayed))` via
`bind_cond`, and returns `g`. -/
theorem c4_post2_update_pipeline (comm synF : Value → Value) (delayAt : String → Value)
    (nm : String) (outRef : ObjId) (w : World) (c : Cells) :
    projAlignPost2_update comm synF delayAt nm outRef w c =
      (w, c.bind_cond outRef (synF (comm (delayAt nm))), synF (comm (delayAt nm))) :=
  rfl

/-- C5: constructing `ProjAlignPre1` installs on the pre node (under the
projection's name, when that key is free) an `_AlignPre` composite over the
synapse and a freshly built delay carrying the projection-named tap; the
composite's update feeds its input through the synapse first and then into
the delay, so the delay buffer stores the synaptic current and, with the
delay component absent, the composite returns the synapse output directly;
and `ProjAlignPre1.update()` called with no argument reads the
projection-named tap, applies the communication operator, binds the result,
and returns it. -/
theorem c5_pre1_syn_then_delay (synF : Value → Value) (b : List Value) (x : Value)
    (synId outId : ObjId) (nm : String) (t : DelayTime) (w : World)
    (hfree : w.pre.get_aft_update nm = none) (comm : Value → Value) (outRef : ObjId)
    (delayAt : String → Value) (w' : World) (c : Cells) :
    _AlignPre_update synF (some b) x = (some (synF x :: b), synF x) ∧
    _AlignPre_update synF none x = (none, synF x) ∧
    (projAlignPre1_register synId outId nm t w).1.pre.get_aft_update nm =
      some (.alignPre synId ⟨w.fresh, [(nm, t)], []⟩) ∧
    (projAlignPre1_register synId outId nm t w).2 = ⟨synId, w.fresh⟩ ∧
    projAlignPre1_update comm outRef delayAt nm w' c none =
      (w', c.bind_cond outRef (comm (delayAt nm)), comm (delayAt nm)) := by
  refine ⟨rfl, rfl, ?_, rfl, rfl⟩
  have hfree' : lookupK w.pre.aftUpdates nm = none := hfree
  have hadd := lookupK_addK_none
    (AftUnit.alignPre synId ⟨w.fresh, [(nm, t)], []⟩) hfree'
  simp only [projAlignPre1_register, World.newDelay, DelayObj.register_entry,
    PreNode.add_aft_update, PreNode.get_aft_update]
  simpa [addK] using hadd

/-- Witness for C5 at a concrete input. -/
theorem c5_pre1_syn_then_delay_witness :
    _AlignPre_update (fun v => v + 1) (some [4]) 2 = (some [3, 4], 3) ∧
    (projAlignPre1_register 7 8 "p" (some 2) ⟨0, 0, ⟨[]⟩, ⟨[], []⟩⟩).1.pre.get_aft_update
      "p" = some (.alignPre 7 ⟨0, [("p", some 2)], []⟩) := by
  have h := c5_pre1_syn_then_delay (fun v => v + 1) [4] 2 7 8 "p" (some 2)
    ⟨0, 0, ⟨[]⟩, ⟨[], []⟩⟩ (by simp [PreNode.get_aft_update, lookupK])
    (fun v => v) 0 (fun _ => 0) ⟨0, 0, ⟨[]⟩, ⟨[], []⟩⟩ ⟨[], []⟩
  exact ⟨h.1, h.2.2.1⟩

/-- C10: `_init_delay` derives the delay target's shape from a `ReturnInfo`
by case analysis on `batch_or_mode`: an int `n` gives shape `(n,) + size`
with batch axis 0, a `BatchingMode` gives `(batch_size,) + size` with batch
axis 0, and a `NonBatchingMode` or any other value gives exactly `size`
with no batch axis — an unrecognized mode silently falls back to the
non-batching layout instead of failing. -/
theorem c10_init_delay_layout (size : List Nat) (n bs : Nat) :
    _init_delay (.info ⟨size, .int n, .array ⟨n :: size⟩, none⟩)
      = .ok (.dataDelay ⟨n :: size, some 0, none⟩ (.array ⟨n :: size⟩)) ∧
    _init_delay (.info ⟨size, .nonBatching, .array ⟨size⟩, none⟩)
      = .ok (.dataDelay ⟨size, none, none⟩ (.array ⟨size⟩)) ∧
    _init_delay (.info ⟨size, .batching bs, .array ⟨bs :: size⟩, none⟩)
      = .ok (.dataDelay ⟨bs :: size, some 0, none⟩ (.array ⟨bs :: size⟩)) ∧
    _init_delay (.info ⟨size, .other, .array ⟨size⟩, none⟩)
      = .ok (.dataDelay ⟨size, none, none⟩ (.array ⟨size⟩)) := by
  refine ⟨?_, ?_, ?_, ?_⟩ <;> simp [_init_delay, deriveLayout, producedInit]

/-- A `ReturnInfo` whose initializer matches the derived shape but whose
`axis_names` count disagrees with the initializer's dimensionality. -/
def c7BadInfo : ReturnInfo :=
  ⟨[2], .nonBatching, .array ⟨[2]⟩, some ["a", "b"]⟩

/-- C7 counterexample: `c7BadInfo` is a `ReturnInfo` whose array data has
exactly the descriptor-derived shape — so none of the claim's three failure
conditions applies and the claim demands a returned delay — yet
`_init_delay` fails with an assertion error (the `axis_names` length
assertion at lines 81–82). -/
theorem c7_counterexample :
    producedInit c7BadInfo.data
        (deriveLayout c7BadInfo.batch_or_mode c7BadInfo.size).1 = some ⟨[2]⟩ ∧
    (ArrayVal.mk [2]).shape = (deriveLayout c7BadInfo.batch_or_mode c7BadInfo.size).1 ∧
    _init_delay (.info c7BadInfo) = .error .assertionError := by
  refine ⟨rfl, rfl, ?_⟩
  simp [_init_delay, c7BadInfo, deriveLayout, producedInit, ArrayVal.ndim]

/-- C7 (amended): `_init_delay` fails at buffer construction and never
defers the error: a `ReturnInfo` whose initializer produces a value whose
shape differs from the descriptor-derived shape fails via assertion; a
`ReturnInfo` whose initializer has the right shape but whose `axis_names`
is set with a length different from the initializer's dimensionality also
fails via assertion; a `ReturnInfo` whose data is neither a callable nor an
array raises `TypeError`; an argument that is neither a `Variable` nor a
`ReturnInfo` raises `TypeError`; in all other cases it returns a delay
whose target has exactly the descriptor-derived shape. -/
theorem c7_init_delay_errors (i : ReturnInfo) (ini : ArrayVal) (ns : List String)
    (v : ArrayVal) :
    (producedInit i.data (deriveLayout i.batch_or_mode i.size).1 = some ini →
      ini.shape ≠ (deriveLayout i.batch_or_mode i.size).1 →
      _init_delay (.info i) = .error .assertionError) ∧
    (producedInit i.data (deriveLayout i.batch_or_mode i.size).1 = some ini →
      ini.shape = (deriveLayout i.batch_or_mode i.size).1 →
      i.axis_names = some ns → ini.ndim ≠ ns.length →
      _init_delay (.info i) = .error .assertionError) ∧
    (i.data = .otherData → _init_delay (.info i) = .error .typeError) ∧
    (_init_delay .otherArg = .error .typeError) ∧
    (_init_delay (.var v) = .ok (.varDelay v)) ∧
    (producedInit i.data (deriveLayout i.batch_or_mode i.size).1 = some ini →
      ini.shape = (deriveLayout i.batch_or_mode i.size).1 →
      (i.axis_names = none ∨ ∃ ns', i.axis_names = some ns' ∧ ini.ndim = ns'.length) →
      _init_delay (.info i) =
        .ok (.dataDelay ⟨(deriveLayout i.batch_or_mode i.size).1,
                         (deriveLayout i.batch_or_mode i.size).2,
                         i.axis_names⟩ i.data)) := by
  refine ⟨?_, ?_, ?_, rfl, rfl, ?_⟩
  · intro hp hne
    simp [_init_delay, hp, hne]
  · intro hp hsh hax hnd
    simp [_init_delay, hp, hsh, hax, hnd]
  · intro hd
    simp [_init_delay, hd, producedInit]
  · intro hp hsh hax
    rcases hax with hnone | ⟨ns', hsome, hlen⟩
    · simp [_init_delay, hp, hsh, hnone]
    · simp [_init_delay, hp, hsh, hsome, hlen]

theorem mgPostBlock_absent (s o nm : String) (w : World)
    (h : w.post.get_bef_update (_post_repr s o) = none) :
    mgPostBlock s o nm w =
      ({ w with
          fresh := w.fresh + 2,
          post := (w.post.add_inp_fun nm (w.fresh + 1)).add_bef_update
            (_post_repr s o) ⟨w.fresh, w.fresh + 1⟩ },
       ⟨w.fresh, w.fresh + 1⟩) := by
  have h' : lookupK w.post.befUpdates (_post_repr s o) = none := h
  have hadd := lookupK_addK_none (AlignPostUnit.mk w.fresh (w.fresh + 1)) h'
  simp [mgPostBlock, PostNode.has_bef_update, PostNode.get_bef_update,
    PostNode.add_bef_update, PostNode.add_inp_fun, h', hadd]

theorem mgPostBlock_present (s o nm : String) (w : World) (u : AlignPostUnit)
    (h : w.post.get_bef_update (_post_repr s o) = some u) :
    mgPostBlock s o nm w = (w, ⟨u.synId, u.outId⟩) := by
  have h' : lookupK w.post.befUpdates (_post_repr s o) = some u := h
  simp [mgPostBlock, PostNode.has_bef_update, PostNode.get_bef_update, h']

theorem preDelayPart_post (nm : String) (t : DelayTime) (w : World) :
    (preDelayPart nm t w).post = w.post := by
  unfold preDelayPart registerSentinelEntry ensurePreDelay World.newDelay
  by_cases h : w.pre.has_aft_update _pre_delay_repr = true <;> simp [h]

theorem preDelayPart_pre_present (nm : String) (t : DelayTime) (w : World) :
    (preDelayPart nm t w).pre.has_aft_update _pre_delay_repr = true := by
  unfold preDelayPart registerSentinelEntry ensurePreDelay World.newDelay
  by_cases h : w.pre.has_aft_update _pre_delay_repr = true
  · simp only [h, if_true]
    have h' : (lookupK w.pre.aftUpdates _pre_delay_repr).isSome = true := h
    obtain ⟨u, hu⟩ := Option.isSome_iff_exists.mp h'
    simp [PreNode.has_aft_update, lookupK_updateK_self, hu]
  · simp only [h, if_false]
    have h' : lookupK w.pre.aftUpdates _pre_delay_repr = none := by
      cases hl : lookupK w.pre.aftUpdates _pre_delay_repr with
      | none => rfl
      | some u => exact absurd (by simp [PreNode.has_aft_update, hl]) h
    have hadd := lookupK_addK_none (AftUnit.delayU ⟨w.fresh, [], []⟩) h'
    simp [PreNode.has_aft_update, PreNode.add_aft_update, lookupK_updateK_self, hadd]

theorem preDelayPart_fresh_of_present (nm : String) (t : DelayTime) (w : World)
    (h : w.pre.has_aft_update _pre_delay_repr = true) :
    (preDelayPart nm t w).fresh = w.fresh := by
  unfold preDelayPart registerSentinelEntry ensurePreDelay
  simp [h]

theorem mgPostBlock_pre (s o nm : String) (w : World) :
    (mgPostBlock s o nm w).1.pre = w.pre := by
  cases hget : w.post.get_bef_update (_post_repr s o) with
  | none => rw [mgPostBlock_absent s o nm w hget]
  | some u => rw [mgPostBlock_present s o nm w u hget]

/-- C1: managed post-aligned construction deduplicates exactly by
descriptor identity.  From a post node that has no unit for the given
descriptor pair, constructing two `ProjAlignPostMg1` (resp.
`ProjAlignPostMg2`) projections with identical `syn`/`out` descriptors
creates exactly one shared `_AlignPost` unit, and both projections'
`syn`/`out` references are identical to that unit's components; whereas two
such projections whose descriptor keys differ (e.g. `tau=5` vs `tau=10`)
create two distinct units — one per distinct descriptor identity — with
distinct `syn`/`out` references. -/
theorem c1_mg_dedup_by_descriptor (s o s' o' n1 n2 : String) (t1 t2 : DelayTime)
    (w : World) (h1 : w.post.get_bef_update (_post_repr s o) = none)
    (h2 : w.post.get_bef_update (_post_repr s' o') = none)
    (hne : _post_repr s o ≠ _post_repr s' o') :
    (countK (projAlignPostMg1_register s o n2
        (projAlignPostMg1_register s o n1 w).1).1.post.befUpdates (_post_repr s o) = 1 ∧
     (projAlignPostMg1_register s o n2 (projAlignPostMg1_register s o n1 w).1).2 =
       (projAlignPostMg1_register s o n1 w).2 ∧
     (projAlignPostMg1_register s o n2
        (projAlignPostMg1_register s o n1 w).1).1.post.get_bef_update (_post_repr s o) =
       some ⟨(projAlignPostMg1_register s o n1 w).2.synRef,
             (projAlignPostMg1_register s o n1 w).2.outRef⟩) ∧
    (countK (projAlignPostMg1_register s' o' n2
        (projAlignPostMg1_register s o n1 w).1).1.post.befUpdates (_post_repr s o) = 1 ∧
     countK (projAlignPostMg1_register s' o' n2
        (projAlignPostMg1_register s o n1 w).1).1.post.befUpdates (_post_repr s' o') = 1 ∧
     (projAlignPostMg1_register s' o' n2 (projAlignPostMg1_register s o n1 w).1).2.synRef ≠
       (projAlignPostMg1_register s o n1 w).2.synRef ∧
     (projAlignPostMg1_register s' o' n2 (projAlignPostMg1_register s o n1 w).1).2.outRef ≠
       (projAlignPostMg1_register s o n1 w).2.outRef) ∧
    (countK (projAlignPostMg2_register s o n2 t2
        (projAlignPostMg2_register s o n1 t1 w).1).1.post.befUpdates (_post_repr s o) = 1 ∧
     (projAlignPostMg2_register s o n2 t2 (projAlignPostMg2_register s o n1 t1 w).1).2 =
       (projAlignPostMg2_register s o n1 t1 w).2 ∧
     (projAlignPostMg2_register s o n2 t2
        (projAlignPostMg2_register s o n1 t1 w).1).1.post.get_bef_update (_post_repr s o) =
       some ⟨(projAlignPostMg2_register s o n1 t1 w).2.synRef,
             (projAlignPostMg2_register s o n1 t1 w).2.outRef⟩) ∧
    (countK (projAlignPostMg2_register s' o' n2 t2
        (projAlignPostMg2_register s o n1 t1 w).1).1.post.befUpdates (_post_repr s o) = 1 ∧
     countK (projAlignPostMg2_register s' o' n2 t2
        (projAlignPostMg2_register s o n1 t1 w).1).1.post.befUpdates (_post_repr s' o') = 1 ∧
     (projAlignPostMg2_register s' o' n2 t2
        (projAlignPostMg2_register s o n1 t1 w).1).2.synRef ≠
       (projAlignPostMg2_register s o n1 t1 w).2.synRef ∧
     (projAlignPostMg2_register s' o' n2 t2
        (projAlignPostMg2_register s o n1 t1 w).1).2.outRef ≠
       (projAlignPostMg2_register s o n1 t1 w).2.outRef) := by
  have hcount0 : countK w.post.befUpdates (_post_repr s o) = 0 :=
    countK_eq_zero_of_lookupK_none h1
  have hcount0' : countK w.post.befUpdates (_post_repr s' o') = 0 :=
    countK_eq_zero_of_lookupK_none h2
  -- ProjAlignPostMg1: the first construction creates the unit.
  have e1 := mgPostBlock_absent s o n1 w h1
  have hA : (projAlignPostMg1_register s o n1 w).1.post.befUpdates =
      addK w.post.befUpdates (_post_repr s o) ⟨w.fresh, w.fresh + 1⟩ := by
    rw [projAlignPostMg1_register, e1]
    rfl
  have hApre : (projAlignPostMg1_register s o n1 w).1.pre = w.pre := by
    rw [projAlignPostMg1_register, e1]
  have hAfresh : (projAlignPostMg1_register s o n1 w).1.fresh = w.fresh + 2 := by
    rw [projAlignPostMg1_register, e1]
  have hArefs : (projAlignPostMg1_register s o n1 w).2 = ⟨w.fresh, w.fresh + 1⟩ := by
    rw [projAlignPostMg1_register, e1]
  have hu1 : (projAlignPostMg1_register s o n1 w).1.post.get_bef_update
      (_post_repr s o) = some ⟨w.fresh, w.fresh + 1⟩ := by
    show lookupK (projAlignPostMg1_register s o n1 w).1.post.befUpdates
      (_post_repr s o) = some ⟨w.fresh, w.fresh + 1⟩
    rw [hA]
    exact lookupK_addK_none _ h1
  -- The second projection with the same descriptor reuses the unit.
  have e2 : projAlignPostMg1_register s o n2 (projAlignPostMg1_register s o n1 w).1 =
      ((projAlignPostMg1_register s o n1 w).1, ⟨w.fresh, w.fresh + 1⟩) :=
    mgPostBlock_present s o n2 _ ⟨w.fresh, w.fresh + 1⟩ hu1
  -- A second projection with a different descriptor allocates a new unit.
  have hu2 : (projAlignPostMg1_register s o n1 w).1.post.get_bef_update
      (_post_repr s' o') = none := by
    show lookupK (projAlignPostMg1_register s o n1 w).1.post.befUpdates
      (_post_repr s' o') = none
    rw [hA, lookupK_addK_ne _ _ hne]
    exact h2
  have e3 := mgPostBlock_absent s' o' n2 (projAlignPostMg1_register s o n1 w).1 hu2
  have e3' : projAlignPostMg1_register s' o' n2 (projAlignPostMg1_register s o n1 w).1 =
      mgPostBlock s' o' n2 (projAlignPostMg1_register s o n1 w).1 := rfl
  -- ProjAlignPostMg2: same structure, after the pre-delay part.
  have hpostA : (preDelayPart n1 t1 w).post = w.post := preDelayPart_post n1 t1 w
  have hMA : (preDelayPart n1 t1 w).post.get_bef_update (_post_repr s o) = none := by
    rw [hpostA]
    exact h1
  have eMA := mgPostBlock_absent s o n1 (preDelayPart n1 t1 w) hMA
  have hMApost : (projAlignPostMg2_register s o n1 t1 w).1.post.befUpdates =
      addK (preDelayPart n1 t1 w).post.befUpdates (_post_repr s o)
        ⟨(preDelayPart n1 t1 w).fresh, (preDelayPart n1 t1 w).fresh + 1⟩ := by
    show (mgPostBlock s o n1 (preDelayPart n1 t1 w)).1.post.befUpdates = _
    rw [eMA]
    rfl
  have hMApre : (projAlignPostMg2_register s o n1 t1 w).1.pre =
      (preDelayPart n1 t1 w).pre := by
    show (mgPostBlock s o n1 (preDelayPart n1 t1 w)).1.pre = _
    rw [eMA]
  have hMAfresh : (projAlignPostMg2_register s o n1 t1 w).1.fresh =
      (preDelayPart n1 t1 w).fresh + 2 := by
    show (mgPostBlock s o n1 (preDelayPart n1 t1 w)).1.fresh = _
    rw [eMA]
  have hMArefs : (projAlignPostMg2_register s o n1 t1 w).2 =
      ⟨(preDelayPart n1 t1 w).fresh, (preDelayPart n1 t1 w).fresh + 1⟩ := by
    show (mgPostBlock s o n1 (preDelayPart n1 t1 w)).2 = _
    rw [eMA]
  have hpostB : (preDelayPart n2 t2 (projAlignPostMg2_register s o n1 t1 w).1).post =
      (projAlignPostMg2_register s o n1 t1 w).1.post :=
    preDelayPart_post n2 t2 _
  have hfreshB : (preDelayPart n2 t2 (projAlignPostMg2_register s o n1 t1 w).1).fresh =
      (projAlignPostMg2_register s o n1 t1 w).1.fresh := by
    apply preDelayPart_fresh_of_present
    rw [hMApre]
    exact preDelayPart_pre_present n1 t1 w
  have huM1 : (preDelayPart n2 t2
      (projAlignPostMg2_register s o n1 t1 w).1).post.get_bef_update (_post_repr s o) =
      some ⟨(preDelayPart n1 t1 w).fresh, (preDelayPart n1 t1 w).fresh + 1⟩ := by
    show lookupK (preDelayPart n2 t2
      (projAlignPostMg2_register s o n1 t1 w).1).post.befUpdates (_post_repr s o) = _
    rw [hpostB, hMApost]
    exact lookupK_addK_none _ hMA
  have eM2 : projAlignPostMg2_register s o n2 t2 (projAlignPostMg2_register s o n1 t1 w).1 =
      (preDelayPart n2 t2 (projAlignPostMg2_register s o n1 t1 w).1,
       ⟨(preDelayPart n1 t1 w).fresh, (preDelayPart n1 t1 w).fresh + 1⟩) :=
    mgPostBlock_present s o n2 _
      ⟨(preDelayPart n1 t1 w).fresh, (preDelayPart n1 t1 w).fresh + 1⟩ huM1
  have huM2 : (preDelayPart n2 t2
      (projAlignPostMg2_register s o n1 t1 w).1).post.get_bef_update (_post_repr s' o') =
      none := by
    show lookupK (preDelayPart n2 t2
      (projAlignPostMg2_register s o n1 t1 w).1).post.befUpdates (_post_repr s' o') = _
    rw [hpostB, hMApost, lookupK_addK_ne _ _ hne, hpostA]
    exact h2
  have eM3 := mgPostBlock_absent s' o' n2
    (preDelayPart n2 t2 (projAlignPostMg2_register s o n1 t1 w).1) huM2
  have eM3' : projAlignPostMg2_register s' o' n2 t2
      (projAlignPostMg2_register s o n1 t1 w).1 =
      mgPostBlock s' o' n2 (preDelayPart n2 t2 (projAlignPostMg2_register s o n1 t1 w).1) :=
    rfl
  refine ⟨⟨?_, ?_, ?_⟩, ⟨?_, ?_, ?_, ?_⟩, ⟨?_, ?_, ?_⟩, ⟨?_, ?_, ?_, ?_⟩⟩
  · rw [e2]
    show countK (projAlignPostMg1_register s o n1 w).1.post.befUpdates (_post_repr s o) = 1
    rw [hA, countK_addK_self, hcount0]
  · rw [e2, hArefs]
  · rw [e2]
    show (projAlignPostMg1_register s o n1 w).1.post.get_bef_update (_post_repr s o) = _
    rw [hu1, hArefs]
  · rw [e3', e3]
    show countK (addK (projAlignPostMg1_register s o n1 w).1.post.befUpdates
      (_post_repr s' o') _) (_post_repr s o) = 1
    rw [countK_addK_ne _ _ (Ne.symm hne), hA, countK_addK_self, hcount0]
  · rw [e3', e3]
    show countK (addK (projAlignPostMg1_register s o n1 w).1.post.befUpdates
      (_post_repr s' o') _) (_post_repr s' o') = 1
    rw [countK_addK_self, hA, countK_addK_ne _ _ hne, hcount0']
  · rw [e3', e3, hArefs]
    show (projAlignPostMg1_register s o n1 w).1.fresh ≠ w.fresh
    rw [hAfresh]
    omega
  · rw [e3', e3, hArefs]
    show (projAlignPostMg1_register s o n1 w).1.fresh + 1 ≠ w.fresh + 1
    rw [hAfresh]
    omega
  · rw [eM2]
    show countK (preDelayPart n2 t2
      (projAlignPostMg2_register s o n1 t1 w).1).post.befUpdates (_post_repr s o) = 1
    rw [hpostB, hMApost, countK_addK_self, hpostA, hcount0]
  · rw [eM2, hMArefs]
  · rw [eM2]
    show (preDelayPart n2 t2
      (projAlignPostMg2_register s o n1 t1 w).1).post.get_bef_update (_post_repr s o) = _
    rw [huM1, hMArefs]
  · rw [eM3', eM3]
    show countK (addK (preDelayPart n2 t2
      (projAlignPostMg2_register s o n1 t1 w).1).post.befUpdates (_post_repr s' o') _)
      (_post_repr s o) = 1
    rw [countK_addK_ne _ _ (Ne.symm hne), hpostB, hMApost, countK_addK_self, hpostA,
      hcount0]
  · rw [eM3', eM3]
    show countK (addK (preDelayPart n2 t2
      (projAlignPostMg2_register s o n1 t1 w).1).post.befUpdates (_post_repr s' o') _)
      (_post_repr s' o') = 1
    rw [countK_addK_self, hpostB, hMApost, countK_addK_ne _ _ hne, hpostA, hcount0']
  · rw [eM3', eM3, hMArefs]
    show (preDelayPart n2 t2 (projAlignPostMg2_register s o n1 t1 w).1).fresh ≠
      (preDelayPart n1 t1 w).fresh
    rw [hfreshB, hMAfresh]
    omega
  · rw [eM3', eM3, hMArefs]
    show (preDelayPart n2 t2 (projAlignPostMg2_register s o n1 t1 w).1).fresh + 1 ≠
      (preDelayPart n1 t1 w).fresh + 1
    rw [hfreshB, hMAfresh]
    omega

/-- Witness for C1 at concrete descriptors (`tau=5` vs `tau=10`). -/
theorem c1_mg_dedup_by_descriptor_witness :
    (countK (projAlignPostMg1_register "Expon(tau=5)" "COBA(E=0)" "proj2"
        (projAlignPostMg1_register "Expon(tau=5)" "COBA(E=0)" "proj1"
          ⟨0, 0, ⟨[]⟩, ⟨[], []⟩⟩).1).1.post.befUpdates
      (_post_repr "Expon(tau=5)" "COBA(E=0)") = 1 ∧
     (projAlignPostMg1_register "Expon(tau=5)" "COBA(E=0)" "proj2"
        (projAlignPostMg1_register "Expon(tau=5)" "COBA(E=0)" "proj1"
          ⟨0, 0, ⟨[]⟩, ⟨[], []⟩⟩).1).2 =
       (projAlignPostMg1_register "Expon(tau=5)" "COBA(E=0)" "proj1"
          ⟨0, 0, ⟨[]⟩, ⟨[], []⟩⟩).2) ∧
    (projAlignPostMg1_register "Expon(tau=10)" "COBA(E=0)" "proj2"
        (projAlignPostMg1_register "Expon(tau=5)" "COBA(E=0)" "proj1"
          ⟨0, 0, ⟨[]⟩, ⟨[], []⟩⟩).1).2.synRef ≠
      (projAlignPostMg1_register "Expon(tau=5)" "COBA(E=0)" "proj1"
          ⟨0, 0, ⟨[]⟩, ⟨[], []⟩⟩).2.synRef := by
  have h := c1_mg_dedup_by_descriptor "Expon(tau=5)" "COBA(E=0)" "Expon(tau=10)"
    "COBA(E=0)" "proj1" "proj2" (some 1) (some 1) ⟨0, 0, ⟨[]⟩, ⟨[], []⟩⟩
    (by simp [PostNode.get_bef_update, lookupK])
    (by simp [PostNode.get_bef_update, lookupK])
    (by simp [_post_repr])
  exact ⟨⟨h.1.1, h.1.2.1⟩, h.2.1.2.2.1⟩

/-- C9: in `ProjAlignPostMg1` and `ProjAlignPostMg2` the post node's input
function is registered only in the branch that first creates the shared
unit: a later projection whose descriptor matches an existing unit
registers no input function and adds no before-update entry — its
construction leaves the post node's hook and input-function registries
entirely unchanged — and its `syn`/`out` references alias the components of
the unit created by the first projection. -/
theorem c9_matching_descriptor_no_post_effects (s o nm : String) (t : DelayTime)
    (w : World) (u : AlignPostUnit)
    (h : w.post.get_bef_update (_post_repr s o) = some u) :
    projAlignPostMg1_register s o nm w = (w, ⟨u.synId, u.outId⟩) ∧
    (projAlignPostMg2_register s o nm t w).1.post = w.post ∧
    (projAlignPostMg2_register s o nm t w).2 = ⟨u.synId, u.outId⟩ := by
  have hA : (preDelayPart nm t w).post.get_bef_update (_post_repr s o) = some u := by
    rw [preDelayPart_post]
    exact h
  have e2 := mgPostBlock_present s o nm (preDelayPart nm t w) u hA
  refine ⟨mgPostBlock_present s o nm w u h, ?_, ?_⟩
  · show (mgPostBlock s o nm (preDelayPart nm t w)).1.post = w.post
    rw [e2]
    exact preDelayPart_post nm t w
  · show (mgPostBlock s o nm (preDelayPart nm t w)).2 = PostRefs.mk u.synId u.outId
    rw [e2]

/-- Witness for C9: a second projection with a matching descriptor leaves
the whole world untouched and aliases the first unit. -/
theorem c9_matching_descriptor_no_post_effects_witness :
    projAlignPostMg1_register "E" "O" "proj2"
        (projAlignPostMg1_register "E" "O" "proj1" ⟨0, 0, ⟨[]⟩, ⟨[], []⟩⟩).1 =
      ((projAlignPostMg1_register "E" "O" "proj1" ⟨0, 0, ⟨[]⟩, ⟨[], []⟩⟩).1, ⟨0, 1⟩) := by
  have h := c9_matching_descriptor_no_post_effects "E" "O" "proj2" none
    (projAlignPostMg1_register "E" "O" "proj1" ⟨0, 0, ⟨[]⟩, ⟨[], []⟩⟩).1 ⟨0, 1⟩
    (by simp [projAlignPostMg1_register, mgPostBlock, _post_repr, PostNode.has_bef_update,
      PostNode.get_bef_update, PostNode.add_bef_update, PostNode.add_inp_fun, lookupK,
      addK])
  exact h.1

theorem register_entry_oid (d : DelayObj) (nm : String) (t : DelayTime) :
    (d.register_entry nm t).oid = d.oid := by
  unfold DelayObj.register_entry
  split <;> rfl

theorem register_entry_hasEntry (d : DelayObj) (nm : String) (t : DelayTime) :
    (lookupK (d.register_entry nm t).entries nm).isSome = true := by
  unfold DelayObj.register_entry
  cases hl : lookupK d.entries nm with
  | some u => simp [hl]
  | none => simp [hl, lookupK_addK_none t hl]

theorem add_bef_update_hasBef (d : DelayObj) (k : String) (u : PreMgUnit) :
    (lookupK (d.add_bef_update k u).befUpdates k).isSome = true := by
  show (lookupK (addK d.befUpdates k u) k).isSome = true
  rw [lookupK_addK_self]
  rfl

theorem sentinelDelay_ensure_absent (w : World)
    (h : w.pre.has_aft_update _pre_delay_repr = false) :
    sentinelDelay (ensurePreDelay w) = some ⟨w.fresh, [], []⟩ ∧
    (ensurePreDelay w).delayAllocs = w.delayAllocs + 1 ∧
    (ensurePreDelay w).fresh = w.fresh + 1 := by
  have h' : lookupK w.pre.aftUpdates _pre_delay_repr = none := by
    cases hl : lookupK w.pre.aftUpdates _pre_delay_repr with
    | none => rfl
    | some u =>
      rw [PreNode.has_aft_update, hl] at h
      simp at h
  have hadd := lookupK_addK_none (AftUnit.delayU ⟨w.fresh, [], []⟩) h'
  have he : ensurePreDelay w =
      { fresh := w.fresh + 1, delayAllocs := w.delayAllocs + 1,
        pre := w.pre.add_aft_update _pre_delay_repr (.delayU ⟨w.fresh, [], []⟩),
        post := w.post } := by
    unfold ensurePreDelay World.newDelay
    simp [h]
  refine ⟨?_, by rw [he], by rw [he]⟩
  rw [he]
  unfold sentinelDelay PreNode.get_aft_update PreNode.add_aft_update
  simp [hadd]

theorem ensure_present (w : World) (d : DelayObj) (h : sentinelDelay w = some d) :
    ensurePreDelay w = w := by
  have h' : w.pre.has_aft_update _pre_delay_repr = true := by
    unfold sentinelDelay at h
    cases hl : w.pre.get_aft_update _pre_delay_repr with
    | none =>
      rw [hl] at h
      simp at h
    | some u =>
      unfold PreNode.get_aft_update at hl
      unfold PreNode.has_aft_update
      rw [hl]
      rfl
  unfold ensurePreDelay
  simp [h']

theorem ensure_idem (w : World) : ensurePreDelay (ensurePreDelay w) = ensurePreDelay w := by
  by_cases h : w.pre.has_aft_update _pre_delay_repr = true
  · have he : ensurePreDelay w = w := by
      unfold ensurePreDelay
      simp [h]
    rw [he, he]
  · have h' : w.pre.has_aft_update _pre_delay_repr = false := by
      simpa using h
    obtain ⟨hs, -, -⟩ := sentinelDelay_ensure_absent w h'
    exact ensure_present _ _ hs

theorem sentinel_get_of_sentinelDelay (w : World) (d : DelayObj)
    (h : sentinelDelay w = some d) :
    w.pre.get_aft_update _pre_delay_repr = some (.delayU d) := by
  unfold sentinelDelay at h
  cases hl : w.pre.get_aft_update _pre_delay_repr with
  | none =>
    rw [hl] at h
    simp at h
  | some u =>
    cases u with
    | delayU d' =>
      rw [hl] at h
      simp at h
      rw [h]
    | alignPre s' d' =>
      rw [hl] at h
      simp at h

theorem sentinelDelay_registerEntry (w : World) (d : DelayObj) (nm : String)
    (t : DelayTime) (h : sentinelDelay w = some d) :
    sentinelDelay (registerSentinelEntry w nm t) = some (d.register_entry nm t) := by
  have hget : lookupK w.pre.aftUpdates _pre_delay_repr = some (.delayU d) :=
    sentinel_get_of_sentinelDelay w d h
  unfold sentinelDelay registerSentinelEntry PreNode.get_aft_update
  rw [lookupK_updateK_self, hget]
  rfl

theorem sentinelDelay_addBef (w : World) (d : DelayObj) (k : String) (u : PreMgUnit)
    (h : sentinelDelay w = some d) :
    sentinelDelay (addSentinelBefUpdate w k u) = some (d.add_bef_update k u) := by
  have hget : lookupK w.pre.aftUpdates _pre_delay_repr = some (.delayU d) :=
    sentinel_get_of_sentinelDelay w d h
  unfold sentinelDelay addSentinelBefUpdate PreNode.get_aft_update
  rw [lookupK_updateK_self, hget]
  rfl

theorem sentinelDelay_pre_eq (w w' : World) (h : w.pre = w'.pre) :
    sentinelDelay w = sentinelDelay w' := by
  unfold sentinelDelay PreNode.get_aft_update
  rw [h]

theorem mgPostBlock_delayAllocs (s o nm : String) (w : World) :
    (mgPostBlock s o nm w).1.delayAllocs = w.delayAllocs := by
  cases hget : w.post.get_bef_update (_post_repr s o) with
  | none => rw [mgPostBlock_absent s o nm w hget]
  | some u => rw [mgPostBlock_present s o nm w u hget]

theorem applySentOp_present (op : SentOp) (w : World) (d : DelayObj)
    (h : sentinelDelay w = some d) :
    ∃ d', sentinelDelay (applySentOp op w) = some d' ∧ d'.oid = d.oid ∧
      (applySentOp op w).delayAllocs = w.delayAllocs := by
  have he := ensure_present w d h
  cases op with
  | mg2 s o nm t =>
    have h1 : preDelayPart nm t w = registerSentinelEntry w nm t := by
      unfold preDelayPart
      rw [he]
    have h2 := sentinelDelay_registerEntry w d nm t h
    refine ⟨d.register_entry nm t, ?_, register_entry_oid d nm t, ?_⟩
    · show sentinelDelay (mgPostBlock s o nm (preDelayPart nm t w)).1 = _
      rw [sentinelDelay_pre_eq _ _ (mgPostBlock_pre s o nm _), h1]
      exact h2
    · show (mgPostBlock s o nm (preDelayPart nm t w)).1.delayAllocs = w.delayAllocs
      rw [mgPostBlock_delayAllocs, h1]
      rfl
  | post2 o nm t =>
    have h1 : preDelayPart nm t w = registerSentinelEntry w nm t := by
      unfold preDelayPart
      rw [he]
    have h2 := sentinelDelay_registerEntry w d nm t h
    refine ⟨d.register_entry nm t, ?_, register_entry_oid d nm t, ?_⟩
    · show sentinelDelay (preDelayPart nm t w) = _
      rw [h1]
      exact h2
    · show (preDelayPart nm t w).delayAllocs = w.delayAllocs
      rw [h1]
      rfl
  | pre2 o nm t =>
    have h1 : preDelayPart nm t w = registerSentinelEntry w nm t := by
      unfold preDelayPart
      rw [he]
    have h2 := sentinelDelay_registerEntry w d nm t h
    refine ⟨d.register_entry nm t, ?_, register_entry_oid d nm t, ?_⟩
    · show sentinelDelay (preDelayPart nm t w) = _
      rw [h1]
      exact h2
    · show (preDelayPart nm t w).delayAllocs = w.delayAllocs
      rw [h1]
      rfl
  | preMg2 s nm t o =>
    unfold applySentOp projAlignPreMg2_register
    simp only [he, h]
    by_cases hbef : d.has_bef_update (_syn_id_preMg2 t s) = true
    · simp only [hbef, if_true]
      exact ⟨d, h, rfl, by trivial⟩
    · simp only [hbef, Bool.false_eq_true, if_false]
      have hd' : sentinelDelay { w with fresh := w.fresh + 1 } = some d := h
      have h3 := sentinelDelay_addBef { w with fresh := w.fresh + 1 } d
        (_syn_id_preMg2 t s) ⟨t, w.fresh⟩ hd'
      exact ⟨d.add_bef_update (_syn_id_preMg2 t s) ⟨t, w.fresh⟩, h3, rfl, by trivial⟩

theorem applySentOp_absent (op : SentOp) (w : World)
    (h : w.pre.has_aft_update _pre_delay_repr = false) :
    ∃ d', sentinelDelay (applySentOp op w) = some d' ∧ d'.oid = w.fresh ∧
      (applySentOp op w).delayAllocs = w.delayAllocs + 1 := by
  obtain ⟨hs, ha, -⟩ := sentinelDelay_ensure_absent w h
  have hid : applySentOp op (ensurePreDelay w) = applySentOp op w := by
    cases op <;>
      unfold applySentOp projAlignPostMg2_register projAlignPost2_register
        projAlignPreMg2_register projAlignPre2_register preDelayPart <;>
      rw [ensure_idem]
  obtain ⟨d', h1, h2, h3⟩ := applySentOp_present op (ensurePreDelay w) _ hs
  rw [hid] at h1 h3
  refine ⟨d', h1, ?_, ?_⟩
  · rw [h2]
  · rw [h3, ha]

theorem applySentOps_present (ops : List SentOp) : ∀ (w : World) (d : DelayObj),
    sentinelDelay w = some d →
    ∃ d', sentinelDelay (applySentOps w ops) = some d' ∧ d'.oid = d.oid ∧
      (applySentOps w ops).delayAllocs = w.delayAllocs := by
  induction ops with
  | nil => exact fun w d h => ⟨d, h, rfl, rfl⟩
  | cons op rest ih =>
    intro w d h
    obtain ⟨d1, h1, h2, h3⟩ := applySentOp_present op w d h
    obtain ⟨d', h1', h2', h3'⟩ := ih (applySentOp op w) d1 h1
    refine ⟨d', h1', h2'.trans h2, ?_⟩
    show (applySentOps (applySentOp op w) rest).delayAllocs = w.delayAllocs
    rw [h3', h3]

/-- C2: every variant that takes a pre node and delays the raw pre signal
(`ProjAlignPostMg2`, `ProjAlignPost2`, `ProjAlignPreMg2`, `ProjAlignPre2`)
registers the pre-side delay under the single fixed sentinel key
`'_*_align_pre_spk_delay_*_'`: over any sequence of such constructions from
a pre node without the sentinel, at most one delay instance is ever
created; once the sentinel delay exists, any further such construction
keeps the same delay object (same identity, no new allocation), and each
construction adds a tap named after the projection to that shared delay
(`ProjAlignPreMg2` instead attaches a keyed before-update unit to it). -/
theorem c2_sentinel_delay_shared (w w' : World) (d : DelayObj) (ops : List SentOp)
    (s o nm : String) (t : DelayTime) (outId : ObjId)
    (h0 : w.pre.has_aft_update _pre_delay_repr = false)
    (hd : sentinelDelay w' = some d) :
    _pre_delay_repr = "_*_align_pre_spk_delay_*_" ∧
    (applySentOps w ops).delayAllocs ≤ w.delayAllocs + 1 ∧
    (ops ≠ [] → (applySentOps w ops).delayAllocs = w.delayAllocs + 1 ∧
      ∃ d', sentinelDelay (applySentOps w ops) = some d' ∧ d'.oid = w.fresh) ∧
    (∃ d', sentinelDelay (applySentOps w' ops) = some d' ∧ d'.oid = d.oid ∧
      (applySentOps w' ops).delayAllocs = w'.delayAllocs) ∧
    sentinelHasEntry (projAlignPostMg2_register s o nm t w').1 nm = true ∧
    sentinelHasEntry (projAlignPost2_register outId nm t w').1 nm = true ∧
    sentinelHasEntry (projAlignPre2_register outId nm t w').1 nm = true ∧
    sentinelHasBef (projAlignPreMg2_register s nm t outId w').1
      (_syn_id_preMg2 t s) = true := by
  have he := ensure_present w' d hd
  have h1 : preDelayPart nm t w' = registerSentinelEntry w' nm t := by
    unfold preDelayPart
    rw [he]
  have h2 := sentinelDelay_registerEntry w' d nm t hd
  refine ⟨rfl, ?_, ?_, applySentOps_present ops w' d hd, ?_, ?_, ?_, ?_⟩
  · cases ops with
    | nil => simp [applySentOps]
    | cons op rest =>
      obtain ⟨d1, hb1, -, hb3⟩ := applySentOp_absent op w h0
      obtain ⟨d', -, -, hb3'⟩ := applySentOps_present rest (applySentOp op w) d1 hb1
      show (applySentOps (applySentOp op w) rest).delayAllocs ≤ w.delayAllocs + 1
      rw [hb3', hb3]
  · intro hne
    cases ops with
    | nil => exact absurd rfl hne
    | cons op rest =>
      obtain ⟨d1, hb1, hb2, hb3⟩ := applySentOp_absent op w h0
      obtain ⟨d', hb1', hb2', hb3'⟩ := applySentOps_present rest (applySentOp op w) d1 hb1
      constructor
      · show (applySentOps (applySentOp op w) rest).delayAllocs = w.delayAllocs + 1
        rw [hb3', hb3]
      · exact ⟨d', hb1', hb2'.trans hb2⟩
  · show sentinelHasEntry (mgPostBlock s o nm (preDelayPart nm t w')).1 nm = true
    unfold sentinelHasEntry
    rw [sentinelDelay_pre_eq _ _ (mgPostBlock_pre s o nm _), h1, h2]
    exact register_entry_hasEntry d nm t
  · show sentinelHasEntry (preDelayPart nm t w') nm = true
    unfold sentinelHasEntry
    rw [h1, h2]
    exact register_entry_hasEntry d nm t
  · show sentinelHasEntry (preDelayPart nm t w') nm = true
    unfold sentinelHasEntry
    rw [h1, h2]
    exact register_entry_hasEntry d nm t
  · unfold projAlignPreMg2_register
    simp only [he, hd]
    by_cases hbef : d.has_bef_update (_syn_id_preMg2 t s) = true
    · simp only [hbef, if_true]
      show sentinelHasBef w' (_syn_id_preMg2 t s) = true
      unfold sentinelHasBef
      rw [hd]
      exact hbef
    · simp only [hbef, Bool.false_eq_true, if_false]
      have hd' : sentinelDelay { w' with fresh := w'.fresh + 1 } = some d := hd
      have h3 := sentinelDelay_addBef { w' with fresh := w'.fresh + 1 } d
        (_syn_id_preMg2 t s) ⟨t, w'.fresh⟩ hd'
      show sentinelHasBef (addSentinelBefUpdate { w' with fresh := w'.fresh + 1 }
        (_syn_id_preMg2 t s) ⟨t, w'.fresh⟩) (_syn_id_preMg2 t s) = true
      unfold sentinelHasBef
      rw [h3]
      exact add_bef_update_hasBef d (_syn_id_preMg2 t s) ⟨t, w'.fresh⟩

/-- Witness for C2 at a concrete construction sequence. -/
theorem c2_sentinel_delay_shared_witness :
    (applySentOps ⟨0, 0, ⟨[]⟩, ⟨[], []⟩⟩
      [SentOp.pre2 5 "a" none, SentOp.mg2 "s" "o" "b" (some 1)]).delayAllocs ≤ 1 ∧
    sentinelHasEntry (projAlignPost2_register 5 "a" none
      (ensurePreDelay ⟨0, 0, ⟨[]⟩, ⟨[], []⟩⟩)).1 "a" = true := by
  have h := c2_sentinel_delay_shared ⟨0, 0, ⟨[]⟩, ⟨[], []⟩⟩
    (ensurePreDelay ⟨0, 0, ⟨[]⟩, ⟨[], []⟩⟩) ⟨0, [], []⟩
    [SentOp.pre2 5 "a" none, SentOp.mg2 "s" "o" "b" (some 1)]
    "s" "o" "a" none 5 (by decide) (by decide)
  exact ⟨h.2.1, h.2.2.2.2.2.2.1⟩

theorem guardedInit_error {ρ : Type} (cs : List Bool) (reg : World → World × ρ)
    (w : World) (h : cs.all id = false) :
    guardedInit cs reg w = (w, .error .typeError) := by
  simp [guardedInit, runChecks_eq, h]

theorem guardedInit_ok {ρ : Type} (cs : List Bool) (reg : World → World × ρ)
    (w : World) (h : cs.all id = true) :
    guardedInit cs reg w = ((reg w).1, .ok (reg w).2) := by
  simp [guardedInit, runChecks_eq, h]

theorem all_id_three (a b c : Bool) : [a, b, c].all id = (a && b && c) := by
  cases a <;> cases b <;> cases c <;> rfl

theorem all_id_four (a b c d : Bool) : [a, b, c, d].all id = (a && b && c && d) := by
  cases a <;> cases b <;> cases c <;> cases d <;> rfl

theorem all_id_five (a b c d e : Bool) :
    [a, b, c, d, e].all id = (a && b && c && d && e) := by
  cases a <;> cases b <;> cases c <;> cases d <;> cases e <;> rfl

/-- C6: for each of the projection variants, an argument lacking a
required role capability makes the `check.is_instance` sequence at the head
of `__init__` raise at construction time, before any registration side
effect (the world is returned unchanged) and before `update` could ever
run; when every capability is present, construction performs exactly the
registration.  The capability booleans appear in the order of the
`check.is_instance` calls of each variant. -/
theorem c6_capability_errors_at_construction (cPre cComm cSyn cOut cPost : Bool)
    (synDesc outDesc nm : String) (synId outId : ObjId) (t : DelayTime) (w : World) :
    ((cComm && cOut && cPost) = false →
      vanillaProj_init cComm cOut cPost outId nm w = (w, .error .typeError)) ∧
    ((cComm && cOut && cPost) = true →
      vanillaProj_init cComm cOut cPost outId nm w =
        ((vanillaProj_register outId nm w).1, .ok (vanillaProj_register outId nm w).2)) ∧
    ((cComm && cSyn && cOut && cPost) = false →
      projAlignPostMg1_init cComm cSyn cOut cPost synDesc outDesc nm w =
        (w, .error .typeError)) ∧
    ((cComm && cSyn && cOut && cPost) = true →
      projAlignPostMg1_init cComm cSyn cOut cPost synDesc outDesc nm w =
        ((projAlignPostMg1_register synDesc outDesc nm w).1,
         .ok (projAlignPostMg1_register synDesc outDesc nm w).2)) ∧
    ((cPre && cComm && cSyn && cOut && cPost) = false →
      projAlignPostMg2_init cPre cComm cSyn cOut cPost synDesc outDesc nm t w =
        (w, .error .typeError)) ∧
    ((cPre && cComm && cSyn && cOut && cPost) = true →
      projAlignPostMg2_init cPre cComm cSyn cOut cPost synDesc outDesc nm t w =
        ((projAlignPostMg2_register synDesc outDesc nm t w).1,
         .ok (projAlignPostMg2_register synDesc outDesc nm t w).2)) ∧
    ((cComm && cSyn && cOut && cPost) = false →
      projAlignPost1_init cComm cSyn cOut cPost synId outId nm w =
        (w, .error .typeError)) ∧
    ((cComm && cSyn && cOut && cPost) = true →
      projAlignPost1_init cComm cSyn cOut cPost synId outId nm w =
        ((projAlignPost1_register synId outId nm w).1,
         .ok (projAlignPost1_register synId outId nm w).2)) ∧
    ((cPre && cComm && cSyn && cOut && cPost) = false →
      projAlignPost2_init cPre cComm cSyn cOut cPost outId nm t w =
        (w, .error .typeError)) ∧
    ((cPre && cComm && cSyn && cOut && cPost) = true →
      projAlignPost2_init cPre cComm cSyn cOut cPost outId nm t w =
        ((projAlignPost2_register outId nm t w).1,
         .ok (projAlignPost2_register outId nm t w).2)) ∧
    ((cPre && cSyn && cComm && cOut && cPost) = false →
      projAlignPreMg1_init cPre cSyn cComm cOut cPost synDesc nm t outId w =
        (w, .error .typeError)) ∧
    ((cPre && cSyn && cComm && cOut && cPost) = true →
      projAlignPreMg1_init cPre cSyn cComm cOut cPost synDesc nm t outId w =
        ((projAlignPreMg1_register synDesc nm t outId w).1,
         .ok (projAlignPreMg1_register synDesc nm t outId w).2)) ∧
    ((cPre && cSyn && cComm && cOut && cPost) = false →
      projAlignPreMg2_init cPre cSyn cComm cOut cPost synDesc nm t outId w =
        (w, .error .typeError)) ∧
    ((cPre && cSyn && cComm && cOut && cPost) = true →
      projAlignPreMg2_init cPre cSyn cComm cOut cPost synDesc nm t outId w =
        ((projAlignPreMg2_register synDesc nm t outId w).1,
         .ok (projAlignPreMg2_register synDesc nm t outId w).2)) ∧
    ((cPre && cSyn && cComm && cOut && cPost) = false →
      projAlignPre1_init cPre cSyn cComm cOut cPost synId outId nm t w =
        (w, .error .typeError)) ∧
    ((cPre && cSyn && cComm && cOut && cPost) = true →
      projAlignPre1_init cPre cSyn cComm cOut cPost synId outId nm t w =
        ((projAlignPre1_register synId outId nm t w).1,
         .ok (projAlignPre1_register synId outId nm t w).2)) ∧
    ((cPre && cSyn && cComm && cOut && cPost) = false →
      projAlignPre2_init cPre cSyn cComm cOut cPost outId nm t w =
        (w, .error .typeError)) ∧
    ((cPre && cSyn && cComm && cOut && cPost) = true →
      projAlignPre2_init cPre cSyn cComm cOut cPost outId nm t w =
        ((projAlignPre2_register outId nm t w).1,
         .ok (projAlignPre2_register outId nm t w).2)) := by
  refine ⟨?_, ?_, ?_, ?_, ?_, ?_, ?_, ?_, ?_, ?_, ?_, ?_, ?_, ?_, ?_, ?_, ?_, ?_⟩
  · exact fun h => guardedInit_error [cComm, cOut, cPost] _ w
      (by rw [all_id_three]; exact h)
  · exact fun h => guardedInit_ok [cComm, cOut, cPost] _ w
      (by rw [all_id_three]; exact h)
  · exact fun h => guardedInit_error [cComm, cSyn, cOut, cPost] _ w
      (by rw [all_id_four]; exact h)
  · exact fun h => guardedInit_ok [cComm, cSyn, cOut, cPost] _ w
      (by rw [all_id_four]; exact h)
  · exact fun h => guardedInit_error [cPre, cComm, cSyn, cOut, cPost] _ w
      (by rw [all_id_five]; exact h)
  · exact fun h => guardedInit_ok [cPre, cComm, cSyn, cOut, cPost] _ w
      (by rw [all_id_five]; exact h)
  · exact fun h => guardedInit_error [cComm, cSyn, cOut, cPost] _ w
      (by rw [all_id_four]; exact h)
  · exact fun h => guardedInit_ok [cComm, cSyn, cOut, cPost] _ w
      (by rw [all_id_four]; exact h)
  · exact fun h => guardedInit_error [cPre, cComm, cSyn, cOut, cPost] _ w
      (by rw [all_id_five]; exact h)
  · exact fun h => guardedInit_ok [cPre, cComm, cSyn, cOut, cPost] _ w
      (by rw [all_id_five]; exact h)
  · exact fun h => guardedInit_error [cPre, cSyn, cComm, cOut, cPost] _ w
      (by rw [all_id_five]; exact h)
  · exact fun h => guardedInit_ok [cPre, cSyn, cComm, cOut, cPost] _ w
      (by rw [all_id_five]; exact h)
  · exact fun h => guardedInit_error [cPre, cSyn, cComm, cOut, cPost] _ w
      (by rw [all_id_five]; exact h)
  · exact fun h => guardedInit_ok [cPre, cSyn, cComm, cOut, cPost] _ w
      (by rw [all_id_five]; exact h)
  · exact fun h => guardedInit_error [cPre, cSyn, cComm, cOut, cPost] _ w
      (by rw [all_id_five]; exact h)
  · exact fun h => guardedInit_ok [cPre, cSyn, cComm, cOut, cPost] _ w
      (by rw [all_id_five]; exact h)
  · exact fun h => guardedInit_error [cPre, cSyn, cComm, cOut, cPost] _ w
      (by rw [all_id_five]; exact h)
  · exact fun h => guardedInit_ok [cPre, cSyn, cComm, cOut, cPost] _ w
      (by rw [all_id_five]; exact h)

/-- Witness for C6: an `out` lacking the bind-condition capability makes
`VanillaProj` construction fail with no side effect, and with all
capabilities present `ProjAlignPre2` construction succeeds. -/
theorem c6_capability_errors_at_construction_witness :
    vanillaProj_init true false true 7 "p" ⟨0, 0, ⟨[]⟩, ⟨[], []⟩⟩ =
      (⟨0, 0, ⟨[]⟩, ⟨[], []⟩⟩, .error .typeError) ∧
    projAlignPre2_init true true true true true 7 "p" none ⟨0, 0, ⟨[]⟩, ⟨[], []⟩⟩ =
      ((projAlignPre2_register 7 "p" none ⟨0, 0, ⟨[]⟩, ⟨[], []⟩⟩).1,
       .ok (projAlignPre2_register 7 "p" none ⟨0, 0, ⟨[]⟩, ⟨[], []⟩⟩).2) := by
  have h1 := c6_capability_errors_at_construction true true true false true
    "s" "o" "p" 3 7 none ⟨0, 0, ⟨[]⟩, ⟨[], []⟩⟩
  have h2 := c6_capability_errors_at_construction true true true true true
    "s" "o" "p" 3 7 none ⟨0, 0, ⟨[]⟩, ⟨[], []⟩⟩
  exact ⟨h1.1 (by decide), h2.2.2.2.2.2.2.2.2.2.2.2.2.2.2.2.2.2 (by decide)⟩

/-- C8: for every projection variant, `update` leaves every construction
registry untouched (the world is returned unchanged: no hooks, input
functions, shared units or taps are created or removed at step time) and
mutates only the cell reachable through the projection's registered
reference, through the sanctioned entry point — `bind_cond` on its `out`
accumulator or `add_current` on its shared synapse; every other output
accumulator and synapse current is left as it was, and delay taps are only
read. -/
theorem c8_update_touches_only_registered_refs (comm synF : Value → Value)
    (delayAt : String → Value) (outRef synRef : ObjId) (nm : String) (w : World)
    (c : Cells) (x synRet : Value) (xArg : Option Value) :
    ((vanillaProj_update comm outRef w c x).1 = w ∧
     (vanillaProj_update comm outRef w c x).2.1.current = c.current ∧
     (∀ j, j ≠ outRef →
       lookupK (vanillaProj_update comm outRef w c x).2.1.bound j =
         lookupK c.bound j)) ∧
    ((projAlignPostMg1_update comm synRef w c x).1 = w ∧
     (projAlignPostMg1_update comm synRef w c x).2.1.bound = c.bound ∧
     (∀ j, j ≠ synRef →
       lookupK (projAlignPostMg1_update comm synRef w c x).2.1.current j =
         lookupK c.current j)) ∧
    ((projAlignPostMg2_update comm synRef delayAt nm w c).1 = w ∧
     (projAlignPostMg2_update comm synRef delayAt nm w c).2.1.bound = c.bound ∧
     (∀ j, j ≠ synRef →
       lookupK (projAlignPostMg2_update comm synRef delayAt nm w c).2.1.current j =
         lookupK c.current j)) ∧
    ((projAlignPost1_update comm synRef w c x).1 = w ∧
     (projAlignPost1_update comm synRef w c x).2.1.bound = c.bound ∧
     (∀ j, j ≠ synRef →
       lookupK (projAlignPost1_update comm synRef w c x).2.1.current j =
         lookupK c.current j)) ∧
    ((projAlignPost2_update comm synF delayAt nm outRef w c).1 = w ∧
     (projAlignPost2_update comm synF delayAt nm outRef w c).2.1.current = c.current ∧
     (∀ j, j ≠ outRef →
       lookupK (projAlignPost2_update comm synF delayAt nm outRef w c).2.1.bound j =
         lookupK c.bound j)) ∧
    ((projAlignPreMg1_update comm outRef delayAt nm w c xArg).1 = w ∧
     (projAlignPreMg1_update comm outRef delayAt nm w c xArg).2.1.current = c.current ∧
     (∀ j, j ≠ outRef →
       lookupK (projAlignPreMg1_update comm outRef delayAt nm w c xArg).2.1.bound j =
         lookupK c.bound j)) ∧
    ((projAlignPreMg2_update comm outRef synRet w c).1 = w ∧
     (projAlignPreMg2_update comm outRef synRet w c).2.1.current = c.current ∧
     (∀ j, j ≠ outRef →
       lookupK (projAlignPreMg2_update comm outRef synRet w c).2.1.bound j =
         lookupK c.bound j)) ∧
    ((projAlignPre1_update comm outRef delayAt nm w c xArg).1 = w ∧
     (projAlignPre1_update comm outRef delayAt nm w c xArg).2.1.current = c.current ∧
     (∀ j, j ≠ outRef →
       lookupK (projAlignPre1_update comm outRef delayAt nm w c xArg).2.1.bound j =
         lookupK c.bound j)) ∧
    ((projAlignPre2_update comm synF delayAt nm outRef w c).1 = w ∧
     (projAlignPre2_update comm synF delayAt nm outRef w c).2.1.current = c.current ∧
     (∀ j, j ≠ outRef →
       lookupK (projAlignPre2_update comm synF delayAt nm outRef w c).2.1.bound j =
         lookupK c.bound j)) := by
  refine ⟨⟨rfl, rfl, ?_⟩, ⟨rfl, rfl, ?_⟩, ⟨rfl, rfl, ?_⟩, ⟨rfl, rfl, ?_⟩,
    ⟨rfl, rfl, ?_⟩, ⟨?_, ?_, ?_⟩, ⟨rfl, rfl, ?_⟩, ⟨?_, ?_, ?_⟩, ⟨rfl, rfl, ?_⟩⟩ <;>
    first
      | (intro j hj
         exact lookupK_setK_ne _ _ (Ne.symm hj))
      | (cases xArg <;> rfl)

/-- Witness for C8 at concrete inputs: updating the projection bound to
output id 0 does not change the cell of output id 1. -/
theorem c8_update_touches_only_registered_refs_witness :
    (vanillaProj_update (fun v => v + 1) 0 ⟨0, 0, ⟨[]⟩, ⟨[], []⟩⟩
      ⟨[(1, 9)], []⟩ 4).1 = ⟨0, 0, ⟨[]⟩, ⟨[], []⟩⟩ ∧
    lookupK (vanillaProj_update (fun v => v + 1) 0 ⟨0, 0, ⟨[]⟩, ⟨[], []⟩⟩
      ⟨[(1, 9)], []⟩ 4).2.1.bound 1 = lookupK [((1 : ObjId), (9 : Value))] 1 := by
  have h := c8_update_touches_only_registered_refs (fun v => v + 1) (fun v => v)
    (fun _ => 0) 0 0 "p" ⟨0, 0, ⟨[]⟩, ⟨[], []⟩⟩ ⟨[(1, 9)], []⟩ 4 0 none
  exact ⟨h.1.1, h.1.2.2 1 (by decide)⟩

/-- Witness for the amended C7 at concrete inputs. -/
theorem c7_init_delay_errors_witness :
    _init_delay (.info ⟨[3], .nonBatching, .array ⟨[4]⟩, none⟩)
      = .error .assertionError ∧
    _init_delay (.info ⟨[3], .nonBatching, .array ⟨[3]⟩, none⟩)
      = .ok (.dataDelay ⟨[3], none, none⟩ (.array ⟨[3]⟩)) := by
  have h := c7_init_delay_errors ⟨[3], .nonBatching, .array ⟨[4]⟩, none⟩ ⟨[4]⟩ [] ⟨[]⟩
  have h' := c7_init_delay_errors ⟨[3], .nonBatching, .array ⟨[3]⟩, none⟩ ⟨[3]⟩ [] ⟨[]⟩
  exact ⟨h.1 rfl (by decide), h'.2.2.2.2.2 rfl rfl (Or.inl rfl)⟩

end Aligns
